import Mathlib

/-!
Verification of the Stocker dashboard (`src/pages/index.tsx`): the
watchlist synchronization / quote-refresh controller and the search
controller, shallowly embedded.

Modelling conventions:
* Provider HTTP calls become oracles passed as arguments: a quote fetch is
  `qf : String → Option QuoteResp` (`none` = the axios call throws), the
  candle endpoint is `hist : String → Nat → Nat → HistResult` taking the
  symbol and the `from`/`to` epoch-second bounds the code puts in the URL.
* Supabase is a `Store` (list of rows plus an id counter) threaded through
  the watchlist mutations; provider failures of `insert`/`delete`/`select`
  are injected through explicit `Bool`/`Except` arguments, since the code
  only branches on whether the call returned an `error`.
* React `useState` setters become functional updates of a `UIState` record;
  each handler is the net effect of one invocation (single-threaded,
  awaits resolved in source order, as in §5 of the design).
* JS numbers carried opaquely (never computed with) are modelled as `Int`;
  `toLocaleDateString` rendering is out of scope, so a chart point keeps
  the raw epoch-second timestamp as its `date`.
-/

namespace Stocker

/-- Raw body of the Finnhub `/quote` endpoint: current price `c`,
change `d`, percent change `dp`. -/
structure QuoteResp where
  c : Int
  d : Int
  dp : Int
deriving DecidableEq, Repr

/-- `interface StockData` from the source. -/
structure StockData where
  symbol : String
  price : Int
  change : Int
  percentChange : Int
deriving DecidableEq, Repr

/-- `interface ChartData`: one chart point. `date` keeps the candle's epoch
seconds; `price` is `data.c[index]`, `none` when the index is out of range
(JS `undefined`). -/
structure ChartPoint where
  date : Nat
  price : Option Int
deriving DecidableEq, Repr

/-- A persisted watchlist row as returned by the supabase `select`/`insert`. -/
structure Row where
  id : Nat
  symbol : String
deriving DecidableEq, Repr

/-- `interface WatchlistItem`: row fields plus the optional spread-in quote
fields `price?`, `change?`, `percentChange?`. -/
structure WatchlistItem where
  id : Nat
  symbol : String
  price : Option Int
  change : Option Int
  percentChange : Option Int
deriving DecidableEq, Repr

/-- Body of the Finnhub `/stock/candle` endpoint: `s = 'ok'` with the
parallel timestamp/close arrays, a non-ok status, or a thrown request. -/
inductive HistResult where
  | ok (t : List Nat) (c : List Int)
  | noData
  | fail
deriving DecidableEq, Repr

/-- The `useState` pieces of the `Home` component that the claims touch. -/
structure UIState where
  ticker : String
  stockData : Option StockData
  chartData : List ChartPoint
  loading : Bool
  error : String
  watchlist : List WatchlistItem
  watchlistLoading : Bool
deriving DecidableEq, Repr

/-- The supabase `watchlist` table: rows plus the id the next insert gets. -/
structure Store where
  rows : List Row
  nextId : Nat
deriving DecidableEq, Repr

/-- `fetchStockData(symbol)`: on response success returns
`{symbol, price: data.c, change: data.d, percentChange: data.dp}`;
a failed request throws (`none`). -/
def fetchStockData (qf : String → Option QuoteResp) (symbol : String) :
    Option StockData :=
  (qf symbol).map (fun r => ⟨symbol, r.c, r.d, r.dp⟩)

/-- `to = Math.floor(Date.now() / 1000)` in `fetchChartData`. -/
def chartTo (nowMs : Nat) : Nat := nowMs / 1000

/-- `from = to - 30 * 24 * 60 * 60` in `fetchChartData` (30 days ago). -/
def chartFrom (nowMs : Nat) : Nat := chartTo nowMs - 30 * 24 * 60 * 60

/-- `fetchChartData(symbol)`: queries the candle endpoint on the fixed
window, and on `s === 'ok'` maps `data.t` with its index to chart points
(price `data.c[index]`); on any other status or a thrown request sets the
chart data to `[]`. Never throws. -/
def fetchChartData (nowMs : Nat) (hist : String → Nat → Nat → HistResult)
    (symbol : String) (st : UIState) : UIState :=
  match hist symbol (chartFrom nowMs) (chartTo nowMs) with
  | .ok t c =>
      { st with chartData := t.enum.map (fun p => ⟨p.2, c.get? p.1⟩) }
  | .noData => { st with chartData := [] }
  | .fail => { st with chartData := [] }

/-- One arm of the `Promise.all(data.map(...))` in `fetchWatchlist`:
`{...item, ...stockData}` on quote success, the bare row on failure
(the inner `catch` returns `item` unchanged). -/
def fetchWatchlistItem (qf : String → Option QuoteResp) (item : Row) :
    WatchlistItem :=
  match fetchStockData qf item.symbol with
  | some sd => ⟨item.id, sd.symbol, some sd.price, some sd.change,
      some sd.percentChange⟩
  | none => ⟨item.id, item.symbol, none, none, none⟩

def fetchWatchlistErrMsg : String := "Failed to fetch watchlist. Please try again."

/-- `fetchWatchlist()`: supabase `select('*')` yields `listResult`; on
success every row gets an independent quote fetch whose failure is
absorbed per row, and the joined list replaces the watchlist; on a
supabase error the watchlist is untouched and the error is surfaced. -/
def fetchWatchlist (qf : String → Option QuoteResp)
    (listResult : Except String (List Row)) (st : UIState) : UIState :=
  match listResult with
  | .error _ => { st with error := fetchWatchlistErrMsg, watchlistLoading := false }
  | .ok rows =>
      { st with watchlist := rows.map (fetchWatchlistItem qf),
                watchlistLoading := false }

def addErrMsg : String := "Failed to add to watchlist. Please try again."

/-- `addToWatchlist(symbol)`: supabase `insert({symbol}).select().single()`;
on insert success the quote fetch runs inside the same `try`, so a quote
failure jumps to the shared `catch` (error surfaced, nothing appended);
only when both succeed is `{...data, ...stockData}` appended. -/
def addToWatchlist (qf : String → Option QuoteResp) (insertErr : Bool)
    (symbol : String) (store : Store) (st : UIState) : Store × UIState :=
  if insertErr then
    (store, { st with error := addErrMsg })
  else
    let row : Row := ⟨store.nextId, symbol⟩
    let store2 : Store := ⟨store.rows ++ [row], store.nextId + 1⟩
    match fetchStockData qf symbol with
    | none => (store2, { st with error := addErrMsg })
    | some sd =>
        (store2, { st with watchlist := st.watchlist ++
            [⟨row.id, sd.symbol, some sd.price, some sd.change,
              some sd.percentChange⟩] })

def removeErrMsg : String := "Failed to remove from watchlist. Please try again."

/-- `removeFromWatchlist(symbol)`: supabase `delete().eq('symbol', symbol)`
(deletes every row whose symbol is exactly `symbol`); on success the
in-memory list is filtered with `item.symbol !== symbol`; on a supabase
error nothing changes and the error is surfaced. -/
def removeFromWatchlist (deleteErr : Bool) (symbol : String)
    (store : Store) (st : UIState) : Store × UIState :=
  if deleteErr then
    (store, { st with error := removeErrMsg })
  else
    (⟨store.rows.filter (fun r => r.symbol != symbol), store.nextId⟩,
     { st with watchlist := st.watchlist.filter (fun e => e.symbol != symbol) })

/-- `isInWatchlist(symbol)`: `watchlist.some(item => item && item.symbol ===
symbol)` — exact string equality (items are never null in the model). -/
def isInWatchlist (st : UIState) (symbol : String) : Bool :=
  st.watchlist.any (fun item => item.symbol == symbol)

/-- `handleWatchlistToggle(symbol)`. -/
def handleWatchlistToggle (qf : String → Option QuoteResp)
    (insertErr deleteErr : Bool) (symbol : String) (store : Store)
    (st : UIState) : Store × UIState :=
  if isInWatchlist st symbol then removeFromWatchlist deleteErr symbol store st
  else addToWatchlist qf insertErr symbol store st

def searchErrMsg : String := "Failed to fetch stock data. Please try again."

/-- `handleSearch`: guarded by `if (ticker)`; clears the error, fetches the
quote (a throw lands in the `catch`, which surfaces the error and nulls
`stockData` only), then on success stores the quote and runs
`fetchChartData`; `finally` drops `loading`. -/
def handleSearch (nowMs : Nat) (qf : String → Option QuoteResp)
    (hist : String → Nat → Nat → HistResult) (st : UIState) : UIState :=
  if st.ticker = "" then st
  else
    let st1 := { st with loading := true, error := "" }
    match fetchStockData qf st.ticker with
    | none =>
        { st1 with error := searchErrMsg, stockData := none, loading := false }
    | some sd =>
        let st2 := fetchChartData nowMs hist st.ticker
          { st1 with stockData := some sd }
        { st2 with loading := false }

/-- The star button on the search card: rendered only when `stockData` is
set, and it calls `handleWatchlistToggle(stockData.symbol)`. -/
def watchButtonClick (qf : String → Option QuoteResp)
    (insertErr deleteErr : Bool) (store : Store) (st : UIState) :
    Store × UIState :=
  match st.stockData with
  | none => (store, st)
  | some sd => handleWatchlistToggle qf insertErr deleteErr sd.symbol store st

/-- The displayed quote, when present, carries a non-empty symbol (it only
ever comes from a guarded search). -/
def stockDataOK (st : UIState) : Bool :=
  match st.stockData with
  | none => true
  | some sd => sd.symbol != ""

/-! ### Promise.all as a completion schedule

`fetchWatchlist` starts every per-row quote fetch before awaiting any and
joins the results by position. `fillByOrder` records results as the
fetches complete, in an arbitrary completion order `ord` over the row
indices; `promiseAllJoin` then reads the slots back positionally, exactly
as `Promise.all` resolves. -/

def fillByOrder {α : Type} (res : Nat → α) :
    List Nat → (Nat → Option α) → Nat → Option α
  | [], acc => acc
  | i :: rest, acc =>
      fillByOrder res rest (fun k => if k = i then some (res i) else acc k)

def promiseAllJoin {α : Type} (res : Nat → α) (ord : List Nat) (n : Nat) :
    List (Option α) :=
  (List.range n).map (fillByOrder res ord (fun _ => none))

/-! ### Concrete fixtures used by witnesses and counterexamples -/

def st0 : UIState := ⟨"", none, [], false, "", [], false⟩

def store0 : Store := ⟨[], 0⟩

def stOne : UIState := ⟨"", none, [], false, "", [⟨1, "AAPL", none, none, none⟩], false⟩

def qfW : String → Option QuoteResp :=
  fun s => if s = "BAD" then none else some ⟨10, 1, 2⟩

def rowsW : List Row := [⟨1, "AAPL"⟩, ⟨2, "BAD"⟩]

/-- A provider response with 31 daily candles, all inside the requested
window when `now` is 2592000000 ms. -/
def hist31 : String → Nat → Nat → HistResult :=
  fun _ _ _ => .ok ((List.range 31).map (· * 86400)) (List.replicate 31 100)

/-! ### Helper lemmas -/

theorem fetchWatchlistItem_symbol (qf : String → Option QuoteResp) (r : Row) :
    (fetchWatchlistItem qf r).symbol = r.symbol := by
  unfold fetchWatchlistItem fetchStockData
  cases qf r.symbol <;> simp

theorem fetchChartData_stockData (nowMs : Nat)
    (hist : String → Nat → Nat → HistResult) (symbol : String) (st : UIState) :
    (fetchChartData nowMs hist symbol st).stockData = st.stockData := by
  unfold fetchChartData
  cases hist symbol (chartFrom nowMs) (chartTo nowMs) <;> simp

theorem fillByOrder_acc {α : Type} (res : Nat → α) (ord : List Nat)
    (acc : Nat → Option α) (j : Nat) (h : acc j = some (res j)) :
    fillByOrder res ord acc j = some (res j) := by
  induction ord generalizing acc with
  | nil => exact h
  | cons i rest ih =>
      unfold fillByOrder
      apply ih
      by_cases hj : j = i
      · subst hj; simp
      · simp [hj, h]

theorem fillByOrder_mem {α : Type} (res : Nat → α) (ord : List Nat)
    (acc : Nat → Option α) (j : Nat) (h : j ∈ ord) :
    fillByOrder res ord acc j = some (res j) := by
  induction ord generalizing acc with
  | nil => cases h
  | cons i rest ih =>
      unfold fillByOrder
      by_cases hj : j = i
      · subst hj
        apply fillByOrder_acc
        simp
      · rcases List.mem_cons.mp h with h1 | h1
        · exact absurd h1 hj
        · exact ih _ h1

theorem promiseAllJoin_complete {α : Type} (res : Nat → α) (ord : List Nat)
    (n : Nat) (h : ∀ i < n, i ∈ ord) :
    promiseAllJoin res ord n = (List.range n).map (fun i => some (res i)) := by
  unfold promiseAllJoin
  apply List.map_congr_left
  intro a ha
  exact fillByOrder_mem res ord _ a (h a (List.mem_range.mp ha))

theorem getD_range_map {α : Type} (l : List α) (d : α) :
    (List.range l.length).map (fun i => l.getD i d) = l := by
  induction l with
  | nil => simp
  | cons a l ih =>
      have h2 : (List.range l.length).map ((fun i => (a :: l).getD i d) ∘ Nat.succ)
          = (List.range l.length).map (fun i => l.getD i d) := by
        apply List.map_congr_left
        intro x _
        rfl
      simp only [List.length_cons, List.range_succ_eq_map, List.map_cons,
        List.map_map]
      rw [h2, ih]
      rfl

/-! ### Claims -/

/-- C1, counterexample to the claim as stated: starting from an empty state,
the supabase insert succeeds (the row is persisted in the store) and the
quote fetch fails, yet the new entry is NOT appended to the in-memory
watchlist, while the claim predicts it is appended with its quote fields
unset. -/
theorem add_quote_failure_counterexample :
    (addToWatchlist (fun _ => none) false "AAPL" store0 st0).1.rows
      = [⟨0, "AAPL"⟩] ∧
    (addToWatchlist (fun _ => none) false "AAPL" store0 st0).2.watchlist = [] ∧
    (addToWatchlist (fun _ => none) false "AAPL" store0 st0).2.watchlist
      ≠ st0.watchlist ++ [⟨0, "AAPL", none, none, none⟩] := by
  decide

/-- C1 as amended: when the insert succeeds and the subsequent quote fetch
fails, the thrown quote error reaches `addToWatchlist`'s shared catch: the
store keeps the inserted row (the successful write is not rolled back), but
the entry is NOT appended — the in-memory watchlist is left unchanged and
the add error is surfaced. -/
theorem add_quote_failure_drops_entry (qf : String → Option QuoteResp)
    (symbol : String) (store : Store) (st : UIState)
    (hq : qf symbol = none) :
    addToWatchlist qf false symbol store st
      = (⟨store.rows ++ [⟨store.nextId, symbol⟩], store.nextId + 1⟩,
         { st with error := addErrMsg }) := by
  simp [addToWatchlist, fetchStockData, hq]

theorem add_quote_failure_drops_entry_witness :
    addToWatchlist (fun _ => none) false "AAPL" store0 st0
      = (⟨store0.rows ++ [⟨store0.nextId, "AAPL"⟩], store0.nextId + 1⟩,
         { st0 with error := addErrMsg }) :=
  add_quote_failure_drops_entry (fun _ => none) "AAPL" store0 st0 rfl

/-- C2: `load()` over N store rows yields exactly N entries; entry by entry,
the quote fields are unset exactly when that symbol's quote fetch failed and
are set from the response when it succeeded; no per-symbol failure fails the
overall load (the error state is untouched on the ok path). -/
theorem load_failure_isolation (qf : String → Option QuoteResp)
    (rows : List Row) (st : UIState) :
    (fetchWatchlist qf (Except.ok rows) st).watchlist.length = rows.length ∧
    (fetchWatchlist qf (Except.ok rows) st).error = st.error ∧
    (fetchWatchlist qf (Except.ok rows) st).watchlist
      = rows.map (fetchWatchlistItem qf) ∧
    ∀ r : Row,
      (qf r.symbol = none →
        fetchWatchlistItem qf r = ⟨r.id, r.symbol, none, none, none⟩) ∧
      (∀ q : QuoteResp, qf r.symbol = some q →
        fetchWatchlistItem qf r
          = ⟨r.id, r.symbol, some q.c, some q.d, some q.dp⟩) := by
  refine ⟨by simp [fetchWatchlist], rfl, rfl, ?_⟩
  intro r
  constructor
  · intro h
    simp [fetchWatchlistItem, fetchStockData, h]
  · intro q h
    simp [fetchWatchlistItem, fetchStockData, h]

theorem load_failure_isolation_witness :
    fetchWatchlistItem qfW ⟨2, "BAD"⟩ = ⟨2, "BAD", none, none, none⟩ ∧
    fetchWatchlistItem qfW ⟨1, "AAPL"⟩ = ⟨1, "AAPL", some 10, some 1, some 2⟩ :=
  ⟨((load_failure_isolation qfW rowsW st0).2.2.2 ⟨2, "BAD"⟩).1 (by decide),
   ((load_failure_isolation qfW rowsW st0).2.2.2 ⟨1, "AAPL"⟩).2 ⟨10, 1, 2⟩
     (by decide)⟩

/-- C5: joining the per-row quote fetches under ANY completion schedule that
completes every fetch produces exactly the positional join `load()`
computes, and the resulting watchlist lists the symbols in exactly the
store's returned order. -/
theorem load_order_schedule_independent (qf : String → Option QuoteResp)
    (rows : List Row) (st : UIState) (ord : List Nat)
    (hord : ∀ i < rows.length, i ∈ ord) :
    promiseAllJoin (fun i => fetchWatchlistItem qf (rows.getD i ⟨0, ""⟩)) ord
        rows.length
      = (fetchWatchlist qf (Except.ok rows) st).watchlist.map some ∧
    (fetchWatchlist qf (Except.ok rows) st).watchlist.map WatchlistItem.symbol
      = rows.map Row.symbol := by
  constructor
  · have hmm : (List.range rows.length).map
        (fun i => some (fetchWatchlistItem qf (rows.getD i ⟨0, ""⟩)))
        = ((List.range rows.length).map (fun i => rows.getD i ⟨0, ""⟩)).map
            (fun r => some (fetchWatchlistItem qf r)) := by
      rw [List.map_map]
      rfl
    rw [promiseAllJoin_complete _ _ _ hord, hmm, getD_range_map]
    simp [fetchWatchlist, List.map_map]
  · simp only [fetchWatchlist, List.map_map]
    apply List.map_congr_left
    intro r _
    exact fetchWatchlistItem_symbol qf r

theorem load_order_schedule_independent_witness :
    promiseAllJoin (fun i => fetchWatchlistItem qfW (rowsW.getD i ⟨0, ""⟩))
        [1, 0] rowsW.length
      = (fetchWatchlist qfW (Except.ok rowsW) st0).watchlist.map some :=
  (load_order_schedule_independent qfW rowsW st0 [1, 0]
      (by
        intro i hi
        rw [show rowsW.length = 2 from rfl] at hi
        interval_cases i <;> decide)).1

/-- The UI state right after a successful search of "MSFT". -/
def stSD : UIState := ⟨"", some ⟨"MSFT", 10, 1, 2⟩, [], false, "", [], false⟩

/-- C3: the only caller of `addToWatchlist` is `handleWatchlistToggle`,
whose branch is exactly the `isInWatchlist` membership check; under that
gating the watchlist symbols stay duplicate-free; and the only UI path into
the toggle (the star button) passes `stockData.symbol`, which is non-empty
in every state the guarded `handleSearch` can produce. -/
theorem add_gating (qf : String → Option QuoteResp)
    (hist : String → Nat → Nat → HistResult) (nowMs : Nat)
    (insertErr deleteErr : Bool) (symbol : String) (store : Store)
    (st : UIState) :
    (isInWatchlist st symbol = true →
      handleWatchlistToggle qf insertErr deleteErr symbol store st
        = removeFromWatchlist deleteErr symbol store st) ∧
    (isInWatchlist st symbol = false →
      handleWatchlistToggle qf insertErr deleteErr symbol store st
        = addToWatchlist qf insertErr symbol store st) ∧
    ((st.watchlist.map WatchlistItem.symbol).Nodup →
      (((handleWatchlistToggle qf insertErr deleteErr symbol store
          st).2).watchlist.map WatchlistItem.symbol).Nodup) ∧
    (stockDataOK st = true →
      stockDataOK (handleSearch nowMs qf hist st) = true) ∧
    (∀ sd : StockData, st.stockData = some sd → stockDataOK st = true →
      isInWatchlist st sd.symbol = false →
      sd.symbol ≠ "" ∧
      watchButtonClick qf insertErr deleteErr store st
        = addToWatchlist qf insertErr sd.symbol store st) := by
  refine ⟨fun h => by simp [handleWatchlistToggle, h],
          fun h => by simp [handleWatchlistToggle, h], ?_, ?_, ?_⟩
  · intro hnd
    unfold handleWatchlistToggle
    by_cases hmem : isInWatchlist st symbol
    · simp only [hmem, if_true]
      unfold removeFromWatchlist
      cases deleteErr with
      | true => simpa using hnd
      | false =>
          simp only [Bool.false_eq_true, if_false]
          exact List.Nodup.sublist
            (List.Sublist.map _ (List.filter_sublist _)) hnd
    · simp only [hmem, if_false]
      unfold addToWatchlist
      cases insertErr with
      | true => simpa using hnd
      | false =>
          cases hq : qf symbol with
          | none => simpa [fetchStockData, hq] using hnd
          | some r =>
              have hnotin : symbol ∉ st.watchlist.map WatchlistItem.symbol := by
                intro hmem2
                rcases List.mem_map.mp hmem2 with ⟨e, he, heq⟩
                have htrue : isInWatchlist st symbol = true := by
                  unfold isInWatchlist
                  rw [List.any_eq_true]
                  exact ⟨e, he, by simp [heq]⟩
                simp [htrue] at hmem
              simp only [Bool.false_eq_true, if_false, fetchStockData, hq,
                Option.map_some']
              rw [List.map_append]
              refine List.nodup_append.mpr ⟨hnd, List.nodup_singleton _, ?_⟩
              intro a ha hb
              simp only [List.map_cons, List.map_nil, List.mem_singleton] at hb
              subst hb
              exact hnotin ha
  · intro hok
    unfold handleSearch
    by_cases ht : st.ticker = ""
    · simpa [ht] using hok
    · cases hq : fetchStockData qf st.ticker with
      | none => simp [ht, hq, stockDataOK]
      | some sd =>
          rcases Option.map_eq_some'.mp hq with ⟨r, _, hsd⟩
          have h1 := fetchChartData_stockData nowMs hist st.ticker
            { st with loading := true, error := "", stockData := some sd }
          simp only [ht, if_false, hq]
          unfold stockDataOK
          simp only [h1]
          subst hsd
          simpa [bne_iff_ne] using ht
  · intro sd hsd hok hnot
    constructor
    · unfold stockDataOK at hok
      rw [hsd] at hok
      simpa [bne_iff_ne] using hok
    · unfold watchButtonClick
      rw [hsd]
      simp [handleWatchlistToggle, hnot]

theorem add_gating_witness :
    ("MSFT" : String) ≠ "" ∧
    watchButtonClick qfW false false store0 stSD
      = addToWatchlist qfW false "MSFT" store0 stSD :=
  (add_gating qfW (fun _ _ _ => HistResult.fail) 0 false false "MSFT" store0
      stSD).2.2.2.2 ⟨"MSFT", 10, 1, 2⟩ rfl (by decide) (by decide)

/-- A state showing the leftovers of a previous successful search. -/
def stStale : UIState :=
  ⟨"BADSYM", some ⟨"OLD", 1, 1, 1⟩, [⟨86400, some 100⟩], false, "", [], false⟩

/-- C4, counterexample to the claim as stated: a search whose quote fetch
fails clears the previous quote and surfaces the error, but the previous
chart data is NOT cleared — the stale chart stays, while the claim says the
previous result, quote and history/chart data alike, is cleared. -/
theorem search_quote_failure_counterexample :
    (handleSearch 0 (fun _ => none) (fun _ _ _ => HistResult.fail)
        stStale).stockData = none ∧
    (handleSearch 0 (fun _ => none) (fun _ _ _ => HistResult.fail)
        stStale).error = searchErrMsg ∧
    (handleSearch 0 (fun _ => none) (fun _ _ _ => HistResult.fail)
        stStale).chartData ≠ [] := by
  decide

/-- C4 as amended: on quote-fetch failure the search fails, the error is
surfaced, the previous quote (`stockData`) is cleared, everything else —
the chart data included — is left as it was (the stale chart is not
cleared), and the history fetcher is never consulted: the outcome does not
depend on it. -/
theorem search_quote_failure_behavior (nowMs : Nat)
    (qf : String → Option QuoteResp)
    (hist hist2 : String → Nat → Nat → HistResult) (st : UIState)
    (ht : st.ticker ≠ "") (hq : qf st.ticker = none) :
    handleSearch nowMs qf hist st
      = { st with
            loading := false
            error := searchErrMsg
            stockData := none } ∧
    handleSearch nowMs qf hist st = handleSearch nowMs qf hist2 st := by
  constructor <;> simp [handleSearch, ht, fetchStockData, hq]

theorem search_quote_failure_behavior_witness :
    handleSearch 0 (fun _ => none) (fun _ _ _ => HistResult.fail) stStale
      = { stStale with
            loading := false
            error := searchErrMsg
            stockData := none } :=
  (search_quote_failure_behavior 0 (fun _ => none)
      (fun _ _ _ => HistResult.fail) (fun _ _ _ => HistResult.noData) stStale
      (by decide) rfl).1

/-- C8: when the quote fetch succeeds and the candle fetch throws or
returns a non-ok status, the search still produces a result: the quote is
stored, the history is the empty list, and no error is surfaced. -/
theorem search_history_failure_behavior (nowMs : Nat)
    (qf : String → Option QuoteResp)
    (hist : String → Nat → Nat → HistResult) (st : UIState) (q : QuoteResp)
    (ht : st.ticker ≠ "") (hq : qf st.ticker = some q)
    (hh : hist st.ticker (chartFrom nowMs) (chartTo nowMs)
            = HistResult.noData ∨
          hist st.ticker (chartFrom nowMs) (chartTo nowMs)
            = HistResult.fail) :
    handleSearch nowMs qf hist st
      = { st with
            loading := false
            error := ""
            stockData := some ⟨st.ticker, q.c, q.d, q.dp⟩
            chartData := [] } := by
  rcases hh with hh | hh <;>
    simp [handleSearch, ht, fetchStockData, hq, fetchChartData, hh]

/-- A state with a stale chart and a stale error, searching "MSFT". -/
def stT : UIState := ⟨"MSFT", none, [⟨86400, some 100⟩], false, "boom", [], false⟩

theorem search_history_failure_behavior_witness :
    handleSearch 0 (fun _ => some ⟨10, 1, 2⟩)
        (fun _ _ _ => HistResult.noData) stT
      = { stT with
            loading := false
            error := ""
            stockData := some ⟨stT.ticker, 10, 1, 2⟩
            chartData := [] } :=
  search_history_failure_behavior 0 (fun _ => some ⟨10, 1, 2⟩)
    (fun _ _ _ => HistResult.noData) stT ⟨10, 1, 2⟩ (by decide) rfl
    (Or.inl rfl)

/-- C6, counterexample to the claim as stated: with `now` = 2592000000 ms
the requested window is [0, 2592000]; a legitimate provider response of 31
daily candles — all inside that window, strictly ascending, one per day —
yields a 31-entry series, while the claim caps the series at 30 entries. -/
theorem chart_31_entries_counterexample :
    (fetchChartData 2592000000 hist31 "MSFT" st0).chartData.length = 31 ∧
    ¬ (fetchChartData 2592000000 hist31 "MSFT" st0).chartData.length ≤ 30 ∧
    (((List.range 31).map (· * 86400)).zip
        (((List.range 31).map (· * 86400)).tail)).all
      (fun p => decide (p.1 < p.2)) = true ∧
    ((List.range 31).map (· * 86400)).all
        (fun x => decide (chartFrom 2592000000 ≤ x)
          && decide (x ≤ chartTo 2592000000)) = true := by
  decide

/-- C6 as amended: the candle request uses exactly the fixed trailing
window to = ⌊now/1000⌋, from = to − 30·86400 (the outcome depends on the
provider only through that query), and on an ok response the code maps the
candles one-to-one in provider order, with no 30-entry cap and no sort: the
series dates are exactly the provider timestamps, so the series is
in-window and ascending precisely when the response is, and its length is
the response's candle count (which daily data over this window can push to
31). -/
theorem chart_window_and_passthrough (nowMs : Nat)
    (hist hist2 : String → Nat → Nat → HistResult) (symbol : String)
    (st : UIState) (t : List Nat) (c : List Int) :
    (hist symbol (chartFrom nowMs) (chartTo nowMs)
        = hist2 symbol (chartFrom nowMs) (chartTo nowMs) →
      fetchChartData nowMs hist symbol st
        = fetchChartData nowMs hist2 symbol st) ∧
    (hist symbol (chartFrom nowMs) (chartTo nowMs) = HistResult.ok t c →
      (fetchChartData nowMs hist symbol st).chartData.length = t.length ∧
      (fetchChartData nowMs hist symbol st).chartData.map ChartPoint.date
        = t ∧
      (t.Chain' (· < ·) →
        ((fetchChartData nowMs hist symbol st).chartData.map
            ChartPoint.date).Chain' (· < ·)) ∧
      ((∀ x ∈ t, chartFrom nowMs ≤ x ∧ x ≤ chartTo nowMs) →
        ∀ p ∈ (fetchChartData nowMs hist symbol st).chartData,
          chartFrom nowMs ≤ p.date ∧ p.date ≤ chartTo nowMs)) := by
  constructor
  · intro h
    unfold fetchChartData
    rw [h]
  · intro h
    have hdates : (fetchChartData nowMs hist symbol st).chartData.map
        ChartPoint.date = t := by
      unfold fetchChartData
      rw [h]
      simp only [List.map_map]
      have : (ChartPoint.date ∘ fun p : Nat × Nat => (⟨p.2, c.get? p.1⟩ : ChartPoint))
          = Prod.snd := by
        funext p
        rfl
      rw [this, List.enum_map_snd]
    refine ⟨?_, hdates, fun hc => by rw [hdates]; exact hc, ?_⟩
    · have := congrArg List.length hdates
      simpa using this
    · intro hw p hp
      have : p.date ∈ t := by
        rw [← hdates]
        exact List.mem_map_of_mem ChartPoint.date hp
      exact hw p.date this

theorem chart_window_and_passthrough_witness :
    (fetchChartData 2592000000 hist31 "MSFT" st0).chartData.map
        ChartPoint.date = (List.range 31).map (· * 86400) :=
  ((chart_window_and_passthrough 2592000000 hist31 hist31 "MSFT" st0
      ((List.range 31).map (· * 86400)) (List.replicate 31 100)).2 rfl).2.1

/-- C7: a store-failing remove leaves everything but the error message
unchanged; a store-succeeding remove drops exactly the entries whose symbol
matches (all of them) and touches nothing else, the error included; and a
remove of a symbol not in the watchlist is a no-op on the UI state with no
error. -/
theorem remove_behavior (symbol : String) (store : Store) (st : UIState) :
    removeFromWatchlist true symbol store st
      = (store, { st with error := removeErrMsg }) ∧
    (removeFromWatchlist false symbol store st).2.watchlist
      = st.watchlist.filter (fun e => e.symbol != symbol) ∧
    (removeFromWatchlist false symbol store st).2.error = st.error ∧
    (∀ e ∈ st.watchlist, e.symbol = symbol →
      e ∉ (removeFromWatchlist false symbol store st).2.watchlist) ∧
    (∀ e ∈ st.watchlist, e.symbol ≠ symbol →
      e ∈ (removeFromWatchlist false symbol store st).2.watchlist) ∧
    (isInWatchlist st symbol = false →
      removeFromWatchlist false symbol store st
        = (⟨store.rows.filter (fun r => r.symbol != symbol), store.nextId⟩,
           st)) := by
  refine ⟨rfl, rfl, rfl, ?_, ?_, ?_⟩
  · intro e _ heq hmem
    rcases List.mem_filter.mp hmem with ⟨_, hb⟩
    simp [heq] at hb
  · intro e he hne
    exact List.mem_filter.mpr ⟨he, by simpa [bne_iff_ne] using hne⟩
  · intro hnot
    unfold removeFromWatchlist
    simp only [Bool.false_eq_true, if_false]
    have h2 : ∀ x ∈ st.watchlist, ¬ x.symbol = symbol := by
      simpa [isInWatchlist] using hnot
    have hall : ∀ e ∈ st.watchlist, (e.symbol != symbol) = true := by
      intro e he
      simpa [bne_iff_ne] using h2 e he
    rw [List.filter_eq_self.mpr hall]

theorem remove_behavior_witness :
    removeFromWatchlist false "MSFT" store0 stOne
      = (⟨store0.rows.filter (fun r => r.symbol != "MSFT"), store0.nextId⟩,
         stOne) :=
  (remove_behavior "MSFT" store0 stOne).2.2.2.2.2 (by decide)

/-- C9: membership, the toggle's branch choice and the in-memory part of
remove all compare symbols by exact string equality: for any two distinct
symbols (case or whitespace variants included), a watchlist holding one
does not contain the other, removing one never removes entries carrying the
other, and toggling the absent variant takes the add branch. -/
theorem symbol_matching_exact (qf : String → Option QuoteResp)
    (insertErr deleteErr : Bool) (store : Store) (st : UIState) (i : Nat)
    (s t : String) (hst : s ≠ t) :
    isInWatchlist { st with watchlist := [⟨i, s, none, none, none⟩] } t
      = false ∧
    isInWatchlist { st with watchlist := [⟨i, s, none, none, none⟩] } s
      = true ∧
    (removeFromWatchlist false t store st).2.watchlist.filter
        (fun e => e.symbol == s)
      = st.watchlist.filter (fun e => e.symbol == s) ∧
    handleWatchlistToggle qf insertErr deleteErr t store
        { st with watchlist := [⟨i, s, none, none, none⟩] }
      = addToWatchlist qf insertErr t store
          { st with watchlist := [⟨i, s, none, none, none⟩] } := by
  have h1 : isInWatchlist { st with watchlist := [⟨i, s, none, none, none⟩] }
      t = false := by
    simp [isInWatchlist, hst]
  refine ⟨h1, by simp [isInWatchlist], ?_,
    by simp [handleWatchlistToggle, h1]⟩
  show (st.watchlist.filter (fun e => e.symbol != t)).filter
      (fun e => e.symbol == s) = st.watchlist.filter (fun e => e.symbol == s)
  rw [List.filter_filter]
  apply List.filter_congr
  intro a _
  by_cases h : a.symbol = s
  · simp [h, hst]
  · simp [h]

theorem symbol_matching_exact_witness :
    isInWatchlist { st0 with watchlist := [⟨1, "AAPL", none, none, none⟩] }
        "aapl" = false ∧
    handleWatchlistToggle qfW false false "aapl" store0
        { st0 with watchlist := [⟨1, "AAPL", none, none, none⟩] }
      = addToWatchlist qfW false "aapl" store0
          { st0 with watchlist := [⟨1, "AAPL", none, none, none⟩] } :=
  ⟨(symbol_matching_exact qfW false false store0 st0 1 "AAPL" "aapl"
      (by decide)).1,
   (symbol_matching_exact qfW false false store0 st0 1 "AAPL" "aapl"
      (by decide)).2.2.2⟩

/-- C10 (frame effect of remove): a store-succeeding remove keeps the
result a sublist of the previous watchlist — every surviving entry is the
original entry, unchanged in id, symbol and quote fields, in its original
relative order — and the survivors are exactly the entries whose symbol
does not match. -/
theorem remove_frame (symbol : String) (store : Store) (st : UIState) :
    List.Sublist (removeFromWatchlist false symbol store st).2.watchlist
      st.watchlist ∧
    (removeFromWatchlist false symbol store st).2.watchlist
      = st.watchlist.filter (fun e => e.symbol != symbol) ∧
    (∀ e ∈ st.watchlist, e.symbol ≠ symbol →
      e ∈ (removeFromWatchlist false symbol store st).2.watchlist) := by
  refine ⟨List.filter_sublist _, rfl, ?_⟩
  intro e he hne
  exact List.mem_filter.mpr ⟨he, by simpa [bne_iff_ne] using hne⟩

theorem remove_frame_witness :
    (⟨1, "AAPL", none, none, none⟩ : WatchlistItem)
      ∈ (removeFromWatchlist false "MSFT" store0 stOne).2.watchlist :=
  (remove_frame "MSFT" store0 stOne).2.2 ⟨1, "AAPL", none, none, none⟩
    (by decide) (by decide)

end Stocker
